import Mathlib

/-!
Verification of the `wreckit` message-admission validator
(`src/cybernetic-system/native/validator-runtime/src/lib.rs`).

The Rust core is `validate(input_ptr, input_len) -> i32`: it reads the byte
region, decodes it as UTF-8 (`std::str::from_utf8`), parses the text with
`serde_json::from_str::<Message>` where
`struct Message { headers: serde_json::Value, payload: serde_json::Value }`,
and applies a fixed header policy on `headers`.  We model the byte buffer as
`List Nat` (each element an octet value), UTF-8 decoding as a
function faithful to the UTF-8 well-formedness rules enforced by
`std::str::from_utf8`, JSON texts by an executable parser following the JSON
grammar accepted by `serde_json` (strict strings with escape and surrogate
validation, no leading zeros, no trailing commas, trailing input rejected),
and the two-channel result (i32 status plus printed reason) as the sum type
`Decision` with a `status` projection.

Three decision-relevant behaviors of `serde_json::from_str` (default
features) are modelled explicitly: the number-range check (literals whose
value overflows f64 fail with `NumberOutOfRange`), the recursion limit
(`remaining_depth` starts at 128 and entering a container at depth 0 fails
with `RecursionLimitExceeded`), and `deserialize_struct`'s sequence path
(a struct also deserializes from a JSON array, filling its fields
positionally, so a two-element array yields a `Message`).
-/

namespace Wreckit

/-- JSON values, mirroring `serde_json::Value`.  Object entries are kept in
parse order, duplicates included; `serde_json` builds its map with `insert`,
so a lookup sees the last occurrence of a key (`lookupLast` below).  Number
literals are kept as source text: the validator never inspects numeric
values. -/
inductive Json where
  | null
  | bool (b : Bool)
  | num (lit : String)
  | str (s : String)
  | arr (elems : List Json)
  | obj (entries : List (String × Json))
deriving Repr

/-- Lookup of a key in an object's entry list, last occurrence winning,
matching a `serde_json::Map` built by repeated `insert`. -/
def lookupLast : List (String × Json) → String → Option Json
  | [], _ => none
  | (k, v) :: rest, key =>
    match lookupLast rest key with
    | some r => some r
    | none => if k = key then some v else none

/-- `serde_json::Value::get(key)`: a map lookup on objects, `None` on every
other kind of value. -/
def jsonGet : Json → String → Option Json
  | .obj entries, key => lookupLast entries key
  | _, _ => none

/-- `Value == "literal"` (`PartialEq<str>` on `serde_json::Value`): true
exactly when the value is a JSON string equal to the literal. -/
def valueEqStr (v : Json) (t : String) : Bool :=
  match v with
  | .str s => decide (s = t)
  | _ => false

/-- Second-byte constraint of a 3-byte sequence with lead byte `b`. -/
def utf8Snd3Ok (b b1 : Nat) : Bool :=
  if b = 224 then decide (160 ≤ b1 ∧ b1 < 192)
  else if b = 237 then decide (128 ≤ b1 ∧ b1 < 160)
  else decide (128 ≤ b1 ∧ b1 < 192)

/-- Second-byte constraint of a 4-byte sequence with lead byte `b`. -/
def utf8Snd4Ok (b b1 : Nat) : Bool :=
  if b = 240 then decide (144 ≤ b1 ∧ b1 < 192)
  else if b = 244 then decide (128 ≤ b1 ∧ b1 < 144)
  else decide (128 ≤ b1 ∧ b1 < 192)

/-- A continuation byte, `80..BF`. -/
def utf8ContOk (b : Nat) : Bool :=
  decide (128 ≤ b ∧ b < 192)

/-- Decode a byte sequence as UTF-8, `none` exactly on the inputs
`std::str::from_utf8` rejects. -/
def decodeUtf8 : List Nat → Option (List Char)
  | [] => some []
  | b :: rest =>
    if b < 128 then
      (decodeUtf8 rest).map (fun cs => Char.ofNat b :: cs)
    else if b < 194 then none
    else if b < 224 then
      match rest with
      | b1 :: rest2 =>
        if utf8ContOk b1 then
          (decodeUtf8 rest2).map (fun cs =>
            Char.ofNat ((b - 192) * 64 + (b1 - 128)) :: cs)
        else none
      | [] => none
    else if b < 240 then
      match rest with
      | b1 :: b2 :: rest3 =>
        if utf8Snd3Ok b b1 && utf8ContOk b2 then
          (decodeUtf8 rest3).map (fun cs =>
            Char.ofNat ((b - 224) * 4096 + (b1 - 128) * 64 + (b2 - 128)) :: cs)
        else none
      | _ => none
    else if b < 245 then
      match rest with
      | b1 :: b2 :: b3 :: rest4 =>
        if utf8Snd4Ok b b1 && utf8ContOk b2 && utf8ContOk b3 then
          (decodeUtf8 rest4).map (fun cs =>
            Char.ofNat ((b - 240) * 262144 + (b1 - 128) * 4096
              + (b2 - 128) * 64 + (b3 - 128)) :: cs)
        else none
      | _ => none
    else none

/-! ## JSON parsing (`serde_json::from_str`)

An executable parser over the decoded character list, following the JSON
grammar `serde_json` accepts: whitespace is space, tab, LF, CR; strings
reject raw control characters below `0x20`, accept the eight simple escapes
and `\uXXXX` with surrogate-pair validation; numbers follow
`-? (0 | [1-9][0-9]*) (. [0-9]+)? ([eE][+-]? [0-9]+)?`; arrays and objects
take comma-separated items with no trailing comma; input after the top-level
value (beyond whitespace) is rejected.  The recursive entry points carry a
fuel argument; the top level supplies more fuel than any input can consume,
so fuel exhaustion never decides an outcome. -/

/-- JSON whitespace: space, LF, tab, CR. -/
def isWsCh (c : Char) : Bool :=
  decide (c = ' ' ∨ c = Char.ofNat 10 ∨ c = Char.ofNat 9 ∨ c = Char.ofNat 13)

/-- Drop leading JSON whitespace. -/
def skipWs (cs : List Char) : List Char := cs.dropWhile isWsCh

/-- ASCII decimal digit. -/
def isDigitCh (c : Char) : Bool :=
  decide ('0' ≤ c ∧ c ≤ '9')

/-- One hexadecimal digit's value. -/
def hexVal (c : Char) : Option Nat :=
  if '0' ≤ c ∧ c ≤ '9' then some (c.toNat - 48)
  else if 'a' ≤ c ∧ c ≤ 'f' then some (c.toNat - 87)
  else if 'A' ≤ c ∧ c ≤ 'F' then some (c.toNat - 55)
  else none

/-- Four hexadecimal digits, as in `\uXXXX`. -/
def parseHex4 : List Char → Option (Nat × List Char)
  | c1 :: c2 :: c3 :: c4 :: rest => do
    let h1 ← hexVal c1
    let h2 ← hexVal c2
    let h3 ← hexVal c3
    let h4 ← hexVal c4
    pure (((h1 * 16 + h2) * 16 + h3) * 16 + h4, rest)
  | _ => none

/-- The eight simple string escapes. -/
def escCh (e : Char) : Option Char :=
  if e = '\"' then some '\"'
  else if e = '\\' then some '\\'
  else if e = '/' then some '/'
  else if e = 'b' then some (Char.ofNat 8)
  else if e = 'f' then some (Char.ofNat 12)
  else if e = 'n' then some (Char.ofNat 10)
  else if e = 'r' then some (Char.ofNat 13)
  else if e = 't' then some (Char.ofNat 9)
  else none

/-- Body of a JSON string, the opening quote already consumed; yields the
decoded characters and the input following the closing quote.  Raw control
characters, bad escapes, lone surrogates and unterminated strings fail. -/
def parseStringBody : Nat → List Char → Option (List Char × List Char)
  | 0, _ => none
  | _ + 1, [] => none
  | fuel + 1, c :: rest =>
    if c = '\"' then some ([], rest)
    else if c = '\\' then
      match rest with
      | [] => none
      | e :: rest2 =>
        match escCh e with
        | some ch => (parseStringBody fuel rest2).map (fun r => (ch :: r.1, r.2))
        | none =>
          if e = 'u' then
            match parseHex4 rest2 with
            | none => none
            | some (cp, rest3) =>
              if cp < 55296 ∨ 57343 < cp then
                (parseStringBody fuel rest3).map (fun r => (Char.ofNat cp :: r.1, r.2))
              else if cp < 56320 then
                match rest3 with
                | '\\' :: 'u' :: rest4 =>
                  match parseHex4 rest4 with
                  | some (cp2, rest5) =>
                    if 56320 ≤ cp2 ∧ cp2 ≤ 57343 then
                      (parseStringBody fuel rest5).map (fun r =>
                        (Char.ofNat (65536 + (cp - 55296) * 1024 + (cp2 - 56320)) :: r.1, r.2))
                    else none
                  | none => none
                | _ => none
              else none
          else none
    else if c.toNat < 32 then none
    else (parseStringBody fuel rest).map (fun r => (c :: r.1, r.2))

/-- Integer part of a number: `0`, or a nonzero digit followed by digits
(no leading zeros). -/
def parseIntPart : List Char → Option (List Char × List Char)
  | [] => none
  | c :: rest =>
    if c = '0' then some ([c], rest)
    else if isDigitCh c then
      match rest.span isDigitCh with
      | (ds, rest2) => some (c :: ds, rest2)
    else none

/-- Optional fraction part: `.` followed by at least one digit. -/
def parseFracPart (cs : List Char) : Option (List Char × List Char) :=
  match cs with
  | c :: rest =>
    if c = '.' then
      match rest.span isDigitCh with
      | ([], _) => none
      | (ds, rest2) => some (c :: ds, rest2)
    else some ([], cs)
  | [] => some ([], cs)

/-- Optional exponent part: `e`/`E`, optional sign, at least one digit. -/
def parseExpPart (cs : List Char) : Option (List Char × List Char) :=
  match cs with
  | c :: rest =>
    if c = 'e' ∨ c = 'E' then
      match (match rest with
             | s :: r => if s = '+' ∨ s = '-' then ([s], r) else (([] : List Char), rest)
             | [] => (([] : List Char), rest)) with
      | (sgn, rest2) =>
        match rest2.span isDigitCh with
        | ([], _) => none
        | (ds, rest3) => some (c :: (sgn ++ ds), rest3)
    else some ([], cs)
  | [] => some ([], cs)

/-- Digit characters to the natural number they denote. -/
def digitsToNat (ds : List Char) : Nat :=
  ds.foldl (fun a c => a * 10 + (c.toNat - 48)) 0

/-- Value of an exponent chunk as produced by `parseExpPart` (`e`/`E`,
optional sign, digits); 0 when the chunk is empty. -/
def expPartVal : List Char → Int
  | [] => 0
  | _ :: rest =>
    match rest with
    | s :: ds =>
      if s = '-' then -(digitsToNat ds : Int)
      else if s = '+' then (digitsToNat ds : Int)
      else (digitsToNat rest : Int)
    | [] => 0

/-- The IEEE-754 binary64 overflow threshold `2^1024 - 2^970` as an exact
integer (written with small exponents so it evaluates cheaply): a decimal
value of at least this magnitude rounds to infinity (round to nearest,
ties to even). -/
def f64OverflowThreshold : Nat := (2 ^ 32) ^ 32 - (2 ^ 32) ^ 30 * 2 ^ 10

/-- The threshold is the IEEE overflow bound `2^1024 - 2^970`. -/
theorem f64OverflowThreshold_eq :
    f64OverflowThreshold = 2 ^ 1024 - 2 ^ 970 := by
  unfold f64OverflowThreshold
  rw [← pow_mul, ← pow_mul, ← pow_add]

/-- serde_json's number-range check (default features): a literal whose
value overflows f64 fails the parse with `NumberOutOfRange`.  `d` is the
significand read from all digits of the literal, `nd` the number of those
digit characters (so `d < 10 ^ nd`), and `e10` the decimal exponent (the
written exponent minus the number of fraction digits), so the literal's
magnitude is `d * 10 ^ e10`.  A zero significand never overflows (serde's
`f64_from_parts` and its exponent-overflow path return 0.0); a huge
positive exponent with a nonzero significand always does.  On the
threshold itself we compare the literal's exact value against the ideal
IEEE-754 overflow bound; serde's default (non-`float_roundtrip`) path
evaluates `significand * 10^exp` in f64 arithmetic, which agrees except
possibly within a rounding unit of the bound. -/
def numOutOfRange (d nd : Nat) (e10 : Int) : Bool :=
  if d = 0 then false
  else if (310 : Int) ≤ e10 then true
  else if 0 ≤ e10 then decide (f64OverflowThreshold ≤ d * 10 ^ e10.toNat)
  else if (nd : Int) ≤ -e10 then false
  else decide (f64OverflowThreshold * 10 ^ (-e10).toNat ≤ d)

/-- A number token starting at the current position (first character is `-`
or a digit); keeps the literal text, and fails when the literal's value
overflows f64 as serde_json's range check does. -/
def parseNumberTok (cs : List Char) : Option (Json × List Char) :=
  match (match cs with
         | c :: r => if c = '-' then ([c], r) else (([] : List Char), cs)
         | [] => (([] : List Char), cs)) with
  | (neg, cs1) =>
    match parseIntPart cs1 with
    | none => none
    | some (ip, cs2) =>
      match parseFracPart cs2 with
      | none => none
      | some (fp, cs3) =>
        match parseExpPart cs3 with
        | none => none
        | some (ep, cs4) =>
          let sig := ip ++ fp.drop 1
          if numOutOfRange (digitsToNat sig) sig.length
              (expPartVal ep - ((fp.drop 1).length : Int)) then none
          else some (.num (String.mk (neg ++ ip ++ fp ++ ep)), cs4)

mutual

/-- One JSON value starting after optional whitespace; yields the value and
the remaining input.  `depth` mirrors serde_json's `remaining_depth`
(initially 128): entering an array or object decrements it, and a
container met when it would reach zero fails the parse, serde's
`RecursionLimitExceeded`.  `fuel` only guarantees termination and is
supplied generously enough at the top level never to run out. -/
def parseValue : Nat → Nat → List Char → Option (Json × List Char)
  | 0, _, _ => none
  | fuel + 1, depth, cs =>
    match skipWs cs with
    | [] => none
    | c :: rest =>
      if c = 'n' then
        match rest with
        | 'u' :: 'l' :: 'l' :: r => some (.null, r)
        | _ => none
      else if c = 't' then
        match rest with
        | 'r' :: 'u' :: 'e' :: r => some (.bool true, r)
        | _ => none
      else if c = 'f' then
        match rest with
        | 'a' :: 'l' :: 's' :: 'e' :: r => some (.bool false, r)
        | _ => none
      else if c = '\"' then
        (parseStringBody (rest.length + 1) rest).map (fun r =>
          (.str (String.mk r.1), r.2))
      else if c = '-' ∨ isDigitCh c then parseNumberTok (c :: rest)
      else if c = '[' then
        if depth ≤ 1 then none
        else
          match skipWs rest with
          | ']' :: r => some (.arr [], r)
          | cs2 => parseElems fuel (depth - 1) cs2
      else if c = Char.ofNat 123 then
        if depth ≤ 1 then none
        else
          match skipWs rest with
          | [] => none
          | c2 :: r2 =>
            if c2 = Char.ofNat 125 then some (.obj [], r2)
            else parseEntries fuel (depth - 1) (c2 :: r2)
      else none

/-- Elements of a nonempty array, up to and including the closing bracket;
`depth` is the remaining depth inside this array. -/
def parseElems : Nat → Nat → List Char → Option (Json × List Char)
  | 0, _, _ => none
  | fuel + 1, depth, cs =>
    match parseValue fuel depth cs with
    | none => none
    | some (v, rest) =>
      match skipWs rest with
      | ',' :: r =>
        match parseElems fuel depth r with
        | some (.arr vs, r2) => some (.arr (v :: vs), r2)
        | _ => none
      | ']' :: r => some (.arr [v], r)
      | _ => none

/-- Entries of a nonempty object, up to and including the closing brace;
`depth` is the remaining depth inside this object. -/
def parseEntries : Nat → Nat → List Char → Option (Json × List Char)
  | 0, _, _ => none
  | fuel + 1, depth, cs =>
    match skipWs cs with
    | '\"' :: rest =>
      match parseStringBody (rest.length + 1) rest with
      | none => none
      | some (key, rest2) =>
        match skipWs rest2 with
        | ':' :: rest3 =>
          match parseValue fuel depth rest3 with
          | none => none
          | some (v, rest4) =>
            match skipWs rest4 with
            | [] => none
            | c :: r =>
              if c = ',' then
                match parseEntries fuel depth r with
                | some (.obj kvs, r2) => some (.obj ((String.mk key, v) :: kvs), r2)
                | _ => none
              else if c = Char.ofNat 125 then
                some (.obj [(String.mk key, v)], r)
              else none
        | _ => none
    | _ => none

end

/-- Parse a complete JSON text: one value, with nothing but whitespace
after it.  The initial depth is serde_json's recursion limit of 128; the
fuel bound exceeds what any input of this length can use, so only the
depth limit and the grammar decide the outcome. -/
def parseJsonText (cs : List Char) : Option Json :=
  match parseValue (4 * cs.length + 8) 128 cs with
  | some (j, rest) =>
    match skipWs rest with
    | [] => some j
    | _ => none
  | none => none

/-! ## The `Message` shape and the validator -/

/-- `struct Message { headers: serde_json::Value, payload: serde_json::Value }`.
Both fields deserialize from any JSON value; only their presence at the top
level is required. -/
structure Message where
  headers : Json
  payload : Json
deriving Repr

/-- Projection of a top-level object's entries onto `Message`, as the derived
`Deserialize` does: entries are visited in order, `headers` and `payload`
fill their slots, a second occurrence of either is a duplicate-field error,
unknown fields are ignored, and both slots must be filled at the end. -/
def projectMsg : List (String × Json) → Option Json → Option Json → Option Message
  | [], some h, some p => some ⟨h, p⟩
  | [], _, _ => none
  | (k, v) :: rest, oh, op =>
    if k = "headers" then
      match oh with
      | some _ => none
      | none => projectMsg rest (some v) op
    else if k = "payload" then
      match op with
      | some _ => none
      | none => projectMsg rest oh (some v)
    else projectMsg rest oh op

/-- `serde_json::from_str::<Message>`: parse the text; a top-level object
is projected onto the `Message` shape through its fields, and — via
`deserialize_struct`'s sequence path — a top-level array fills the struct
positionally, succeeding exactly on two-element arrays (fewer is an
invalid-length error, more is trailing data).  Everything else is an
invalid-type error. -/
def parseMessage (cs : List Char) : Option Message :=
  match parseJsonText cs with
  | some (.obj entries) => projectMsg entries none none
  | some (.arr [h, p]) => some ⟨h, p⟩
  | _ => none

/-- The `_signature_alg` conjunct of the policy:
`m.headers.get("_signature_alg").map(|a| a == "hmac-sha256").unwrap_or(false)`. -/
def sigAlgOk (h : Json) : Bool :=
  match jsonGet h "_signature_alg" with
  | some a => valueEqStr a "hmac-sha256"
  | none => false

/-- The full header policy of `validate`:
`_nonce` present, `_timestamp` present, and `_signature_alg` equal to the
string `"hmac-sha256"`. -/
def policyOk (h : Json) : Bool :=
  (jsonGet h "_nonce").isSome && (jsonGet h "_timestamp").isSome && sigAlgOk h

/-- The validator's outcome: the i32 status together with the printed
diagnostic, as a sum type (`0`/`"OK"` on acceptance, `1`/`"REJECT:reason"`
otherwise). -/
inductive Decision where
  | accepted
  | rejected (reason : String)
deriving DecidableEq, Repr

/-- The i32 the Rust function returns: `0` for accepted, `1` for rejected. -/
def Decision.status : Decision → Int
  | .accepted => 0
  | .rejected _ => 1

/-- `fn reject(reason: &str) -> i32`: prints `REJECT:reason` and returns 1;
modelled as the rejection outcome carrying the reason. -/
def reject (reason : String) : Decision := .rejected reason

/-- `validate`: decode the byte region as UTF-8, deserialize a `Message`,
check the header policy. -/
def validate (input : List Nat) : Decision :=
  match decodeUtf8 input with
  | none => reject "bad-utf8"
  | some cs =>
    match parseMessage cs with
    | none => reject "bad-json"
    | some m => if policyOk m.headers then .accepted else reject "missing-headers"

/-- Byte encoding of an ASCII text, for concrete inputs. -/
def asciiBytes (s : String) : List Nat := s.toList.map Char.toNat

/-! ## Helper lemmas -/

/-- The spec's non-UTF-8 example bytes `FF FE`. -/
def exBadUtf8 : List Nat := [255, 254]

/-- C3: every buffer whose bytes are not valid UTF-8 is rejected with
reason `bad-utf8` (status 1); the decode stage alone decides this. -/
theorem validate_rejects_bad_utf8 (bs : List Nat)
    (hdec : decodeUtf8 bs = none) :
    validate bs = .rejected "bad-utf8" := by
  simp [validate, hdec, reject]

/-- Witness for C3 on the bytes `FF FE`. -/
theorem validate_rejects_bad_utf8_witness :
    validate exBadUtf8 = .rejected "bad-utf8" :=
  validate_rejects_bad_utf8 exBadUtf8 rfl

/-- An arbitrary input used to instantiate determinism. -/
def exDet : List Nat := asciiBytes "\x7b\"headers\":\x7b\x7d,\"payload\":true\x7d"

/-- C6: the validator is deterministic and stateless — it is modelled as a
pure function of the input bytes alone (no state parameter exists), so two
calls on identical bytes return identical decisions. -/
theorem validate_deterministic (b1 b2 : List Nat) (h : b1 = b2) :
    validate b1 = validate b2 := by rw [h]

/-- Witness for C6. -/
theorem validate_deterministic_witness :
    validate exDet = validate exDet :=
  validate_deterministic exDet exDet rfl

/-- C7: the validator is a total function (so it terminates on every input
without panicking) and its integer status is always exactly 0 or exactly
1. -/
theorem validate_status_zero_or_one (bs : List Nat) :
    (validate bs).status = 0 ∨ (validate bs).status = 1 := by
  cases h : validate bs with
  | accepted => exact Or.inl rfl
  | rejected r => exact Or.inr rfl

end Wreckit
